import Mathlib

/-!
Verification development for the calc-engine-yaml-builder repository.

The JavaScript sources under `src/lib` (`yaml-utils.js`, `sql-utils.js`,
`types.js` together with the action-definitions table) are shallowly
embedded below.  JavaScript runtime values occurring in the relevant code
paths are modelled by the inductive type `JSValue`; action records, which
the data model and the JSDoc annotations declare to be objects (mappings
from field names to values), are modelled as association lists `JSObj`.

Modelling conventions, fixed once for the whole file:
* JS strings are Lean `String`s; `s.length` counts characters
  (code points) where JS counts UTF-16 units — identical on the ASCII
  inputs this code manipulates.
* `toUpperCase`/`toLowerCase`/`trim` are modelled on the ASCII range
  (`Char.toUpper`/`Char.toLower`, and an explicit whitespace set).
* JS strict equality `===` on primitives is structural equality; on
  arrays and objects it is reference equality, modelled conservatively
  as `false` (two structured values are distinct references).
* Property access on a non-object yields `undefined`; the engine-specific
  `TypeError` raised by JS when accessing a property of `null`/`undefined`
  is outside the model (records are mappings per the data model).
* The external libraries (`js-yaml`'s `load`, `sql-formatter`'s `format`)
  are opaque boundaries: their outcome is passed in as a parameter
  (`Except`/`Option`), exactly as the spec treats them.
-/

/-- Model of a JavaScript runtime value as produced by the YAML loader. -/
inductive JSValue where
  | undefined
  | null
  | bool (b : Bool)
  | num (n : Int)
  | str (s : String)
  | arr (elems : List JSValue)
  | obj (fields : List (String × JSValue))

/-- An action record: a JS object, i.e. an ordered association list of
fields (`Object.entries` order). -/
abbrev JSObj := List (String × JSValue)

/-- JS truthiness: `undefined`, `null`, `false`, `0` and `""` are falsy;
every other value (including empty arrays and objects) is truthy. -/
def truthy : JSValue → Bool
  | .undefined => false
  | .null => false
  | .bool b => b
  | .num n => n != 0
  | .str s => s != ""
  | .arr _ => true
  | .obj _ => true

/-- `Array.isArray`. -/
def isArray : JSValue → Bool
  | .arr _ => true
  | _ => false

/-- The element list of an array value (only used under an `isArray` guard). -/
def asArr : JSValue → List JSValue
  | .arr l => l
  | _ => []

/-- Field lookup on an object modelled as an association list. -/
def getField (fs : JSObj) (k : String) : JSValue :=
  match fs.lookup k with
  | some v => v
  | none => .undefined

/-- JS property access `v[k]`: lookup on objects, `undefined` otherwise
(named properties of primitives and arrays play no role here). -/
def getProp : JSValue → String → JSValue
  | .obj fs, k => getField fs k
  | _, _ => .undefined

/-- JS strict equality `===`, conservatively `false` on arrays/objects
(reference equality between separately constructed values). -/
def jsStrictEq : JSValue → JSValue → Bool
  | .undefined, .undefined => true
  | .null, .null => true
  | .bool a, .bool b => a == b
  | .num a, .num b => a == b
  | .str a, .str b => a == b
  | _, _ => false

/-- Decimal digit characters of a positive number, most significant first.
The fuel argument (any bound `≥ n`) makes the recursion structural, so the
kernel can evaluate it. -/
def decChars : Nat → Nat → List Char
  | 0, _ => []
  | _ + 1, 0 => []
  | f + 1, n + 1 => decChars f ((n + 1) / 10) ++ [Nat.digitChar ((n + 1) % 10)]

/-- Decimal rendering of a natural number, as JS `String(n)` renders an
array index. -/
def decStr (n : Nat) : String :=
  if n = 0 then "0" else (decChars n n).asString

/-- Decimal rendering of an integer. -/
def intStr (n : Int) : String :=
  if n < 0 then "-" ++ decStr (-n).toNat else decStr n.toNat

mutual

/-- JS `ToString` coercion (as performed by template literals and by
`String.prototype.includes` on its argument). -/
def jsToString : JSValue → String
  | .undefined => "undefined"
  | .null => "null"
  | .bool b => if b then "true" else "false"
  | .num n => intStr n
  | .str s => s
  | .arr xs => jsArrJoin xs
  | .obj _ => "[object Object]"

/-- `Array.prototype.toString` = `join(",")`; `null`/`undefined` elements
render as the empty string. -/
def jsArrJoin : List JSValue → String
  | [] => ""
  | [x] =>
    (match x with
     | .null => ""
     | .undefined => ""
     | v => jsToString v)
  | x :: xs =>
    (match x with
     | .null => ""
     | .undefined => ""
     | v => jsToString v) ++ "," ++ jsArrJoin xs

end

/-- `s.includes(sub)`: `sub` occurs as a contiguous substring of `s`
(scanning model of the JS builtin). -/
def hasInfix : List Char → List Char → Bool
  | l, sub =>
    if List.isPrefixOf sub l then true
    else
      match l with
      | [] => false
      | _ :: t => hasInfix t sub

/-- String-level wrapper for `s.includes(sub)`. -/
def strIncludes (s sub : String) : Bool :=
  hasInfix s.data sub.data

/-- `toLowerCase` (ASCII model), computed on the character list so the
kernel can evaluate it. -/
def toLowerStr (s : String) : String :=
  (s.data.map Char.toLower).asString

/-- `toUpperCase` (ASCII model), computed on the character list. -/
def toUpperStr (s : String) : String :=
  (s.data.map Char.toUpper).asString

/-- `s.endsWith(t)`, computed on the character lists. -/
def strEndsWith (s t : String) : Bool :=
  List.isPrefixOf t.data.reverse s.data.reverse

/-! ## Schema registry: `actionDefinitions` (action-definitions table) -/

/-- One entry of the action-definitions table (`types.js` /
`action-definitions.js`). -/
structure ActionDefinition where
  name : String
  color : String
  icon : String
  mandatoryProps : List String
  optionalProps : List String

/-- The fixed table of the 8 known action types, verbatim from the source. -/
def actionDefinitions : List ActionDefinition :=
  [ { name := "Extract", color := "#4CAF50", icon := "database",
      mandatoryProps := ["action", "name", "dataframe", "location"],
      optionalProps := ["tableName", "databaseName"] },
    { name := "Execute", color := "#2196F3", icon := "play",
      mandatoryProps := ["action", "name", "dataframe", "script"],
      optionalProps := ["output"] },
    { name := "Transform", color := "#FF9800", icon := "refresh-cw",
      mandatoryProps := ["action", "name", "dataframe", "transformations"],
      optionalProps := ["options"] },
    { name := "Load", color := "#9C27B0", icon := "upload",
      mandatoryProps := ["action", "name", "dataframe", "destination"],
      optionalProps := ["format", "options"] },
    { name := "Merge", color := "#F44336", icon := "git-merge",
      mandatoryProps := ["action", "name", "dataframe", "sources"],
      optionalProps := ["strategy", "options"] },
    { name := "Purge", color := "#795548", icon := "trash-2",
      mandatoryProps := ["action", "name", "dataframe", "target"],
      optionalProps := ["options"] },
    { name := "S3Replicate", color := "#607D8B", icon := "copy",
      mandatoryProps := ["action", "name", "dataframe", "source", "destination"],
      optionalProps := ["options"] },
    { name := "Include", color := "#009688", icon := "file-plus",
      mandatoryProps := ["action", "name", "dataframe", "path"],
      optionalProps := ["options"] } ]

/-- `getMandatoryProps` from the source: required fields of a type tag,
`[]` for unknown tags. -/
def getMandatoryProps (actionName : String) : List String :=
  match actionDefinitions.find? (fun d => d.name == actionName) with
  | some definition => definition.mandatoryProps
  | none => []

/-! ## `validateYaml` (yaml-utils.js) -/

/-- The errors `validateYaml` pushes for the record at a given index: the
body of the `data.actions.forEach` callback. -/
def recordErrors (index : Nat) (action : JSValue) : List String :=
  if !truthy (getProp action "action") then
    ["Action at index " ++ decStr index ++ " is missing the 'action' property"]
  else
    let actionType := getProp action "action"
    match actionDefinitions.find? (fun def_ => jsStrictEq (.str def_.name) actionType) with
    | none =>
      ["Unknown action type '" ++ jsToString actionType ++ "' at index " ++ decStr index]
    | some definition =>
      (definition.mandatoryProps.filter
          (fun prop => prop != "action" && !truthy (getProp action prop))).map
        (fun prop =>
          "Action '" ++ jsToString actionType ++ "' at index " ++ decStr index ++
            " is missing mandatory property '" ++ prop ++ "'")

/-- The error string produced by the `catch` block of `validateYaml`:
`some msg` models a thrown `Error` with that message, `none` a thrown
non-`Error` value. -/
def parseErrorMessage : Option String → String
  | some msg => "YAML parsing error: " ++ msg
  | none => "Unknown YAML parsing error"

/-- `validateYaml`.  Its input is the outcome of the opaque `yaml.load`
boundary: `.ok data` when the loader returned `data`, `.error e` when it
threw. -/
def validateYaml (parseResult : Except (Option String) JSValue) :
    List String × Option JSValue :=
  match parseResult with
  | .error e => ([parseErrorMessage e], none)
  | .ok data =>
    let actions := getProp data "actions"
    if !truthy data || !truthy actions || !isArray actions then
      (["YAML must contain an 'actions' array"], none)
    else
      ((asArr actions).enum.flatMap (fun p => recordErrors p.1 p.2), some data)

/-! ## `findRelationships` (yaml-utils.js)

The `dataframeMap` built at the top of the source function is dead code
(populated, never read), so it is omitted.  Edges carry the node-id
strings `action-<index>` pushed by the source. -/

/-- An edge as pushed by `findRelationships`. -/
structure Edge where
  source : String
  target : String
deriving DecidableEq

/-- The node id `action-${index}` used for both edge endpoints. -/
def nodeId (index : Nat) : String :=
  "action-" ++ decStr index

/-- The `usesDataframe` scan: some field of the target record, other than
`action` and `name`, is a string containing `sourceId`, or an array with a
string element containing `sourceId`.  `sourceId` is the `ToString` image
of the source record's `dataframe` value, as coerced by `includes`. -/
def usesDataframe (target : JSObj) (sourceId : String) : Bool :=
  target.any (fun kv =>
    if kv.1 == "action" || kv.1 == "name" then false
    else
      match kv.2 with
      | .str s => strIncludes s sourceId
      | .arr items =>
        items.any (fun item =>
          match item with
          | .str s => strIncludes s sourceId
          | _ => false)
      | _ => false)

/-- The decision taken by the inner `forEach` body of `findRelationships`
for the ordered pair (source index, target index): `some edge` exactly when
the source pushes an edge. -/
def relationshipFor (sourceIndex : Nat) (sourceDataframe : JSValue)
    (targetIndex : Nat) (targetAction : JSObj) : Option Edge :=
  if sourceIndex == targetIndex then none
  else if jsStrictEq (getField targetAction "action") (.str "Load") &&
      jsStrictEq (getField targetAction "dataframe") sourceDataframe then none
  else if usesDataframe targetAction (jsToString sourceDataframe) then
    some { source := nodeId sourceIndex, target := nodeId targetIndex }
  else none

/-- `findRelationships`: the doubly nested `forEach` over the record list,
pushing at most one edge per ordered index pair. -/
def findRelationships (actions : List JSObj) : List Edge :=
  actions.enum.flatMap (fun sp =>
    let sourceDataframe := getField sp.2 "dataframe"
    actions.enum.filterMap (fun tp =>
      relationshipFor sp.1 sourceDataframe tp.1 tp.2))

/-! ## A small matcher for the source's regular-expression tests

The JS code uses `RegExp.test`/`match` with a handful of fixed patterns.
`RE` is a regular-expression syntax with character-class leaves; matching
is by Brzozowski derivatives, and `test` semantics ("does a match exist
anywhere") is an explicit scan over start positions.  Word boundaries
(`\b`) occur only at the edges of the source patterns and are handled by
the scan. -/

inductive RE where
  | eps
  | cls (p : Char → Bool)
  | seq (a b : RE)
  | alt (a b : RE)
  | star (a : RE)

/-- Does the expression accept the empty string? -/
def RE.nullable : RE → Bool
  | .eps => true
  | .cls _ => false
  | .seq a b => a.nullable && b.nullable
  | .alt a b => a.nullable || b.nullable
  | .star _ => true

/-- Brzozowski derivative with respect to one character. -/
def RE.derive : RE → Char → RE
  | .eps, _ => .cls (fun _ => false)
  | .cls p, c => if p c then .eps else .cls (fun _ => false)
  | .seq a b, c =>
    if a.nullable then .alt (.seq (a.derive c) b) (b.derive c)
    else .seq (a.derive c) b
  | .alt a b, c => .alt (a.derive c) (b.derive c)
  | .star a, c => .seq (a.derive c) (.star a)

/-- Literal string pattern. -/
def reLit (s : String) : RE :=
  s.data.foldr (fun c r => .seq (.cls (fun x => x == c)) r) .eps

/-- JS `\s` on the ASCII range. -/
def isJsWS (c : Char) : Bool :=
  c == ' ' || c == '\t' || c == '\n' || c == '\r' ||
    c == Char.ofNat 11 || c == Char.ofNat 12

/-- JS `\w`: ASCII letters, digits and underscore. -/
def isJsWordChar (c : Char) : Bool :=
  (c ≥ 'a' && c ≤ 'z') || (c ≥ 'A' && c ≤ 'Z') || (c ≥ '0' && c ≤ '9') || c == '_'

/-- `\s+`. -/
def reWsPlus : RE := .seq (.cls isJsWS) (.star (.cls isJsWS))

/-- `\s*`. -/
def reWsStar : RE := .star (.cls isJsWS)

/-- `.` (any character except a line terminator), starred: `.*`. -/
def reDotStar : RE := .star (.cls (fun c => !(c == '\n' || c == '\r')))

/-- Does some prefix of `l` match `r`?  (Pattern without a trailing `\b`.) -/
def rePrefixAny : RE → List Char → Bool
  | r, [] => r.nullable
  | r, c :: t => r.nullable || rePrefixAny (r.derive c) t

/-- Does some prefix of `l` match `r`, ending at a word boundary?
(Pattern with a trailing `\b`: the next character, if any, is not a word
character.) -/
def rePrefixBoundary : RE → List Char → Bool
  | r, [] => r.nullable
  | r, c :: t => (r.nullable && !isJsWordChar c) || rePrefixBoundary (r.derive c) t

/-- Does some prefix of `l` match `r`, ending at an end of line?
(Pattern anchored by `$` under the `m` flag.) -/
def rePrefixLineEnd : RE → List Char → Bool
  | r, [] => r.nullable
  | r, c :: t => (r.nullable && (c == '\n' || c == '\r')) || rePrefixLineEnd (r.derive c) t

/-- Is position `i` preceded by a word boundary (`\b` at the pattern
start)? -/
def boundaryBefore (l : List Char) (i : Nat) : Bool :=
  i == 0 ||
    (match l.get? (i - 1) with
     | some c => !isJsWordChar c
     | none => true)

/-- `RegExp.test` for a pattern of shape `\b <r>` (and `\b <r> \b` when
`trailB` is set): scan every start position. -/
def reSearchWordB (r : RE) (trailB : Bool) (l : List Char) : Bool :=
  (List.range (l.length + 1)).any (fun i =>
    boundaryBefore l i &&
      (if trailB then rePrefixBoundary r (l.drop i) else rePrefixAny r (l.drop i)))

/-- `RegExp.test` for a pattern without boundary anchors. -/
def reSearch (r : RE) (l : List Char) : Bool :=
  (List.range (l.length + 1)).any (fun i => rePrefixAny r (l.drop i))

/-- `RegExp.test` for a pattern ending in `\s*$` under the `m` flag. -/
def reSearchLineEnd (r : RE) (l : List Char) : Bool :=
  (List.range (l.length + 1)).any (fun i => rePrefixLineEnd r (l.drop i))

/-! ## `detectSQLSyntax` (sql-utils.js) -/

/-- The `SQL_KEYWORDS` table, verbatim. -/
def SQL_KEYWORDS : List String :=
  ["SELECT", "FROM", "WHERE", "JOIN", "INNER", "LEFT", "RIGHT", "OUTER", "ON",
   "INSERT", "INTO", "VALUES", "UPDATE", "SET", "DELETE", "CREATE", "TABLE",
   "ALTER", "DROP", "INDEX", "VIEW", "PROCEDURE", "FUNCTION", "TRIGGER",
   "AND", "OR", "NOT", "IN", "EXISTS", "BETWEEN", "LIKE", "IS", "NULL",
   "ORDER", "BY", "GROUP", "HAVING", "DISTINCT", "COUNT", "SUM", "AVG",
   "MIN", "MAX", "CASE", "WHEN", "THEN", "ELSE", "END", "AS", "UNION",
   "INTERSECT", "EXCEPT", "WITH", "RECURSIVE", "LIMIT", "OFFSET", "TOP"]

/-- The nine `sqlPatterns` of `detectSQLSyntax`, each with its
trailing-boundary flag.  The `/i` flag is modelled by matching the
upper-case pattern against the upper-cased text. -/
def sqlPatterns : List (RE × Bool) :=
  [ (.seq (reLit "SELECT") (.seq reWsPlus (.seq reDotStar (.seq reWsPlus (reLit "FROM")))), true),
    (.seq (reLit "INSERT") (.seq reWsPlus (reLit "INTO")), true),
    (.seq (reLit "UPDATE") (.seq reWsPlus (.seq reDotStar (.seq reWsPlus (reLit "SET")))), true),
    (.seq (reLit "DELETE") (.seq reWsPlus (reLit "FROM")), true),
    (.seq (reLit "CREATE") (.seq reWsPlus (.alt (reLit "TABLE") (.alt (reLit "VIEW") (reLit "INDEX")))), true),
    (.seq (reLit "ALTER") (.seq reWsPlus (reLit "TABLE")), true),
    (.seq (reLit "DROP") (.seq reWsPlus (.alt (reLit "TABLE") (.alt (reLit "VIEW") (reLit "INDEX")))), true),
    (.seq (reLit "WHERE") (.seq reWsPlus (.seq reDotStar (reLit "="))), false),
    (.seq (reLit "JOIN") (.seq reWsPlus (.seq reDotStar (.seq reWsPlus (reLit "ON")))), true) ]

/-- `detectSQLSyntax`: some structural pattern matches, or at least two
keywords occur as substrings of the upper-cased text. -/
def detectSQLSyntax (text : String) : Bool :=
  if text == "" then false
  else
    let upperText := toUpperStr text
    let hasPattern := sqlPatterns.any (fun pr => reSearchWordB pr.1 pr.2 upperText.data)
    let keywordCount := (SQL_KEYWORDS.filter (fun keyword => strIncludes upperText keyword)).length
    hasPattern || decide (2 ≤ keywordCount)

/-! ## `identifySQLProperties`, `formatSQL`, `autoFormatSQLInAction` -/

/-- The `potentialSQLProps` name fragments, verbatim. -/
def potentialSQLProps : List String :=
  ["script", "query", "sql", "command", "statement", "procedure",
   "transformation", "transformations", "condition", "filter",
   "select", "where", "join", "subquery"]

/-- Does the lower-cased field name contain one of the fragments? -/
def nameSuggestsSQL (key : String) : Bool :=
  potentialSQLProps.any (fun prop => strIncludes (toLowerStr key) prop)

/-- `identifySQLProperties`: collect the names of the fields holding SQL —
string fields longer than 10 characters whose name matches a fragment or
whose value matches `detectSQLSyntax`, and array fields with a string
element matching `detectSQLSyntax`. -/
def identifySQLProperties (action : JSObj) : List String :=
  action.filterMap (fun kv =>
    match kv.2 with
    | .str value =>
      if decide (10 < value.length) then
        if nameSuggestsSQL kv.1 || detectSQLSyntax value then some kv.1 else none
      else none
    | .arr items =>
      if items.any (fun item =>
          match item with
          | .str s => detectSQLSyntax s
          | _ => false) then some kv.1 else none
    | _ => none)

/-- `formatSQL`: delegate to the opaque `sql-formatter` call (`fmt`,
already closed over the option bag; `none` models a thrown formatting
error) and fall back to the original text on failure or empty input. -/
def formatSQL (fmt : String → Option String) (sql : String) : String :=
  if sql == "" then sql
  else
    match fmt sql with
    | some formatted => formatted
    | none => sql

/-- JS property assignment `obj[k] = v` on the association-list model:
overwrite the existing field in place, or append a new one. -/
def setField (fs : JSObj) (k : String) (v : JSValue) : JSObj :=
  if fs.any (fun p => p.1 == k) then
    fs.map (fun p => if p.1 == k then (p.1, v) else p)
  else fs ++ [(k, v)]

/-- `autoFormatSQLInAction`: spread-copy the record, then overwrite each
field named by `identifySQLProperties` — string fields wholesale, array
fields element-wise (only string elements detected as SQL). -/
def autoFormatSQLInAction (fmt : String → Option String) (action : JSObj) : JSObj :=
  (identifySQLProperties action).foldl
    (fun formattedAction prop =>
      match getField formattedAction prop with
      | .str value => setField formattedAction prop (.str (formatSQL fmt value))
      | .arr items =>
        setField formattedAction prop (.arr (items.map (fun item =>
          match item with
          | .str s => if detectSQLSyntax s then .str (formatSQL fmt s) else item
          | _ => item)))
      | _ => formattedAction)
    action

/-! ## `validateSQL` (sql-utils.js) -/

/-- Count of the occurrences of one character (`sql.match(/c/g).length`). -/
def countChar (l : List Char) (c : Char) : Nat :=
  (l.filter (fun x => x == c)).length

/-- The backslash character. -/
def backslashChar : Char := Char.ofNat 92

/-- The single-quote character. -/
def singleQuoteChar : Char := Char.ofNat 39

/-- Occurrences of `q` not immediately preceded by a backslash, for the
lookbehind counts `sql.match(/(?<!\\)q/g).length`; `prev` is the previous
character. -/
def countUnescapedFrom (q prev : Char) : List Char → Nat
  | [] => 0
  | c :: t =>
    (if c == q && prev != backslashChar then 1 else 0) + countUnescapedFrom q c t

/-- Occurrences of `q` not immediately preceded by a backslash. -/
def countUnescaped (q : Char) : List Char → Nat
  | [] => 0
  | c :: t => (if c == q then 1 else 0) + countUnescapedFrom q c t

/-- First index at which `sub` starts in `l` (JS `indexOf`; `l.length` if
absent, which does not arise at the call site). -/
def indexOfSub (l sub : List Char) : Nat :=
  if List.isPrefixOf sub l then 0
  else
    match l with
    | [] => 0
    | _ :: t => 1 + indexOfSub t sub

/-- The successive matches of the greedy global regex `JOIN\s+\w+`:
at each position, `JOIN` followed by a maximal nonempty whitespace run and
a maximal nonempty word-character run; scanning resumes after a match.
Every step strictly shortens the list, so a fuel argument of the list
length keeps the recursion structural (as in `decChars`). -/
def scanJoinAux : Nat → List Char → List (List Char)
  | 0, _ => []
  | _ + 1, [] => []
  | fuel + 1, c :: rest =>
    if List.isPrefixOf "JOIN".data (c :: rest) then
      let wsRun := (rest.drop 3).takeWhile isJsWS
      let afterWs := (rest.drop 3).dropWhile isJsWS
      let wordRun := afterWs.takeWhile isJsWordChar
      if wsRun.isEmpty || wordRun.isEmpty then scanJoinAux fuel rest
      else ("JOIN".data ++ wsRun ++ wordRun) :: scanJoinAux fuel (afterWs.drop wordRun.length)
    else scanJoinAux fuel rest

/-- `upperSQL.match(/JOIN\s+\w+/g) || []`. -/
def scanJoinMatches (l : List Char) : List (List Char) :=
  scanJoinAux l.length l

/-- The JS whitespace trim (`String.prototype.trim`, ASCII model). -/
def jsTrim (s : String) : String :=
  (((s.data.dropWhile isJsWS).reverse.dropWhile isJsWS).reverse).asString

/-- Result record of `validateSQL`. -/
structure SQLValidation where
  isValid : Bool
  errors : List String
  warnings : List String
deriving DecidableEq

/-- `SELECT\s+(@@|GETDATE|CURRENT_|NOW)` — the no-`FROM` exemption. -/
def selectNoFromExemptRE : RE :=
  .seq (reLit "SELECT") (.seq reWsPlus
    (.alt (reLit "@@") (.alt (reLit "GETDATE") (.alt (reLit "CURRENT_") (reLit "NOW")))))

/-- `;\s*(DROP|DELETE|UPDATE|INSERT)` (case-insensitive, applied to the
upper-cased text). -/
def injectionChainRE : RE :=
  .seq (reLit ";") (.seq reWsStar
    (.alt (reLit "DROP") (.alt (reLit "DELETE") (.alt (reLit "UPDATE") (reLit "INSERT")))))

/-- `UNION\s+SELECT` (case-insensitive). -/
def unionSelectRE : RE := .seq (reLit "UNION") (.seq reWsPlus (reLit "SELECT"))

/-- Dash-dash followed by `\s*`, for the trailing line-comment test
(anchored by `$` under the `m` flag). -/
def lineCommentRE : RE := .seq (reLit "--") reWsStar

/-- `\/\*.*\*\/` — a block comment on a single line. -/
def blockCommentRE : RE := .seq (reLit "/*") (.seq reDotStar (reLit "*/"))

/-- `validateSQL`.  `fmtError` is the outcome of the opaque
`sql-formatter` `format(sql)` call: `some m` models a thrown error with
message `m`, `none` success. -/
def validateSQL (fmtError : Option String) (sql : String) : SQLValidation :=
  if sql == "" then { isValid := true, errors := [], warnings := [] }
  else
    let chars := sql.data
    let upper := (toUpperStr sql).data
    let fmtErrors :=
      match fmtError with
      | some m => ["SQL syntax error: " ++ m]
      | none => []
    let parenErrors :=
      if countChar chars '(' != countChar chars ')' then
        ["Unmatched parentheses in SQL statement"]
      else []
    let singleQuoteErrors :=
      if countUnescaped singleQuoteChar chars % 2 != 0 then
        ["Unmatched single quotes in SQL statement"]
      else []
    let doubleQuoteErrors :=
      if countUnescaped '"' chars % 2 != 0 then
        ["Unmatched double quotes in SQL statement"]
      else []
    let selectWarnings :=
      if hasInfix upper "SELECT".data && !hasInfix upper "FROM".data then
        if !reSearch selectNoFromExemptRE upper then
          ["SELECT statement without FROM clause"]
        else []
      else []
    let updateWarnings :=
      if hasInfix upper "UPDATE".data && hasInfix upper "SET".data &&
          !hasInfix upper "WHERE".data then
        ["UPDATE statement without WHERE clause - this will affect all rows"]
      else []
    let deleteWarnings :=
      if hasInfix upper "DELETE FROM".data && !hasInfix upper "WHERE".data then
        ["DELETE statement without WHERE clause - this will delete all rows"]
      else []
    let joinWarnings :=
      (scanJoinMatches upper).filterMap (fun joinMatch =>
        let afterJoin := upper.drop (indexOfSub upper joinMatch + joinMatch.length)
        if !hasInfix afterJoin "ON".data && !hasInfix afterJoin "USING".data then
          some ("JOIN clause missing ON condition: " ++ joinMatch.asString)
        else none)
    let injectionWarnings :=
      ([reSearch injectionChainRE upper,
        reSearch unionSelectRE upper,
        reSearchLineEnd lineCommentRE chars,
        reSearch blockCommentRE chars].filter (fun b => b)).map
        (fun _ => "Potential SQL injection pattern detected")
    let deprecatedWarnings :=
      if hasInfix upper "*=".data || hasInfix upper "=*".data then
        ["Deprecated outer join syntax detected, use explicit JOIN syntax"]
      else []
    let semicolonWarnings :=
      if chars.any (fun c => c == ';') && !strEndsWith (jsTrim sql) ";" then
        ["Consider ending SQL statements with semicolon"]
      else []
    let errors := fmtErrors ++ parenErrors ++ singleQuoteErrors ++ doubleQuoteErrors
    let warnings :=
      selectWarnings ++ updateWarnings ++ deleteWarnings ++ joinWarnings ++
        injectionWarnings ++ deprecatedWarnings ++ semicolonWarnings
    { isValid := errors.isEmpty, errors := errors, warnings := warnings }

/-! ## S3 filename helpers (types.js) -/

/-- Result of `validateS3Filename`. -/
structure S3Validation where
  isValid : Bool
  error : Option String
deriving DecidableEq

/-- The fixed reserved-name list, verbatim. -/
def reservedNames : List String :=
  ["CON", "PRN", "AUX", "NUL",
   "COM1", "COM2", "COM3", "COM4", "COM5", "COM6", "COM7", "COM8", "COM9",
   "LPT1", "LPT2", "LPT3", "LPT4", "LPT5", "LPT6", "LPT7", "LPT8", "LPT9"]

/-- One character of the class `[<>:"|?*\x00-\x1f]`. -/
def isInvalidFilenameChar (c : Char) : Bool :=
  c == '<' || c == '>' || c == ':' || c == '"' || c == '|' || c == '?' || c == '*' ||
    decide (c.toNat ≤ 31)

/-- `validateS3Filename` on string input (`!filename` is the empty
string; the `typeof` guard always passes for strings). -/
def validateS3Filename (filename : String) : S3Validation :=
  if filename == "" then { isValid := false, error := some "Filename is required" }
  else
    let trimmed := jsTrim filename
    if trimmed.length == 0 then
      { isValid := false, error := some "Filename cannot be empty" }
    else if decide (255 < trimmed.length) then
      { isValid := false, error := some "Filename too long (max 255 characters)" }
    else if trimmed.data.any isInvalidFilenameChar then
      { isValid := false, error := some "Filename contains invalid characters" }
    else
      let nameWithoutExt := toUpperStr ((trimmed.data.takeWhile (fun c => c != '.')).asString)
      if reservedNames.contains nameWithoutExt then
        { isValid := false, error := some "Filename uses a reserved name" }
      else { isValid := true, error := none }

/-- `ensureYamlExtension`: keep an existing `.yaml`/`.yml` extension,
otherwise append `.yaml` to the trimmed name. -/
def ensureYamlExtension (filename : String) : String :=
  let trimmed := jsTrim filename
  if strEndsWith trimmed ".yaml" || strEndsWith trimmed ".yml" then trimmed
  else trimmed ++ ".yaml"

/-! ## Definitions following the claims' wording

These two definitions are deliberately written from the *claims'* words
(not from the source), to be compared against the source-derived
functions above. -/

/-- Claim C6's counting criterion, as worded: a required field that is
"absent or empty" on the record — absent (`undefined`), a YAML empty
value (`null`), an empty string, or an empty sequence.  (The source
instead tests JS falsiness, which also fires on `false` and `0`.) -/
def absentOrEmpty (action : JSValue) (prop : String) : Bool :=
  match getProp action prop with
  | .undefined => true
  | .null => true
  | .str s => s == ""
  | .arr items => items.isEmpty
  | _ => false

/-- Claim C9's rejection criterion, as worded: after trimming, the name
is empty, longer than 255 characters, contains one of `< > : " | ? *` or
a control character, or its part before the first dot equals a reserved
name case-insensitively. -/
def claimRejectsFilename (filename : String) : Bool :=
  let trimmed := jsTrim filename
  trimmed == "" || decide (255 < trimmed.length) ||
    trimmed.data.any isInvalidFilenameChar ||
    reservedNames.contains (toUpperStr ((trimmed.data.takeWhile (fun c => c != '.')).asString))

/-- Decimal parser, the left inverse of `decChars` used to prove that the
rendering is injective. -/
def parseDecChars (l : List Char) : Nat :=
  l.foldl (fun acc c => acc * 10 + (c.toNat - 48)) 0

/-! # Lemmas -/

theorem parseDecChars_append (l : List Char) (c : Char) :
    parseDecChars (l ++ [c]) = parseDecChars l * 10 + (c.toNat - 48) := by
  simp [parseDecChars, List.foldl_append]

theorem digitChar_toNat_sub (d : Nat) (h : d < 10) :
    (Nat.digitChar d).toNat - 48 = d := by
  interval_cases d <;> rfl

theorem parseDecChars_decChars :
    ∀ f n : Nat, n ≤ f → parseDecChars (decChars f n) = n := by
  intro f
  induction f with
  | zero =>
    intro n h
    obtain rfl : n = 0 := Nat.le_zero.mp h
    rfl
  | succ f ih =>
    intro n h
    match n with
    | 0 => rfl
    | m + 1 =>
      have hdiv : (m + 1) / 10 ≤ f := by
        have hlt : (m + 1) / 10 < m + 1 := Nat.div_lt_self (Nat.succ_pos m) (by norm_num)
        omega
      rw [decChars, parseDecChars_append, ih _ hdiv,
        digitChar_toNat_sub _ (Nat.mod_lt _ (by norm_num))]
      omega

theorem asString_data (l : List Char) : (List.asString l).data = l := rfl

theorem decStr_injective : ∀ m n : Nat, decStr m = decStr n → m = n := by
  intro m n h
  have hdata : (decStr m).data = (decStr n).data := by rw [h]
  have key : ∀ k : Nat, parseDecChars ((decStr k).data) = k := by
    intro k
    by_cases hk : k = 0
    · subst hk; rfl
    · simp only [decStr, if_neg hk, asString_data]
      exact parseDecChars_decChars k k (Nat.le_refl k)
  rw [← key m, ← key n, hdata]

theorem nodeId_injective : ∀ m n : Nat, nodeId m = nodeId n → m = n := by
  intro m n h
  apply decStr_injective
  have hdata : (nodeId m).data = (nodeId n).data := by rw [h]
  simp only [nodeId, String.data_append] at hdata
  have : (decStr m).data = (decStr n).data := List.append_cancel_left hdata
  cases hm : decStr m with
  | mk dm =>
    cases hn : decStr n with
    | mk dn =>
      rw [hm, hn] at this
      simp only [] at this
      exact congrArg String.mk this

theorem findRelationships_eq (actions : List JSObj) :
    findRelationships actions =
      actions.enum.flatMap (fun sp =>
        actions.enum.filterMap (fun tp =>
          relationshipFor sp.1 (getField sp.2 "dataframe") tp.1 tp.2)) := rfl

theorem relationshipFor_some (si ti : Nat) (df : JSValue) (tgt : JSObj) (e : Edge)
    (h : relationshipFor si df ti tgt = some e) :
    si ≠ ti ∧ e.source = nodeId si ∧ e.target = nodeId ti ∧
      (jsStrictEq (getField tgt "action") (.str "Load") &&
        jsStrictEq (getField tgt "dataframe") df) = false ∧
      usesDataframe tgt (jsToString df) = true := by
  unfold relationshipFor at h
  split_ifs at h with h1 h2 h3
  case _ =>
    cases h
    have hne : si ≠ ti := by
      intro hc
      subst hc
      simp at h1
    have h2f : (jsStrictEq (getField tgt "action") (JSValue.str "Load") &&
        jsStrictEq (getField tgt "dataframe") df) = false := by
      simpa using h2
    exact ⟨hne, rfl, rfl, h2f, h3⟩

theorem mem_findRelationships (actions : List JSObj) (e : Edge)
    (h : e ∈ findRelationships actions) :
    ∃ si src ti tgt, (si, src) ∈ actions.enum ∧ (ti, tgt) ∈ actions.enum ∧
      relationshipFor si (getField src "dataframe") ti tgt = some e := by
  rw [findRelationships_eq, List.mem_flatMap] at h
  obtain ⟨sp, hsp, h⟩ := h
  rw [List.mem_filterMap] at h
  obtain ⟨tp, htp, h⟩ := h
  exact ⟨sp.1, sp.2, tp.1, tp.2, hsp, htp, h⟩

theorem enum_pairwise_fst_lt {α : Type} (l : List α) :
    l.enum.Pairwise (fun p q => p.1 < q.1) := by
  have h := List.pairwise_lt_range' 0 l.length 1
  rw [← List.enumFrom_map_fst 0 l] at h
  exact (List.pairwise_map.mp h)

theorem findRelationships_nodup (actions : List JSObj) :
    (findRelationships actions).Nodup := by
  rw [findRelationships_eq, List.nodup_flatMap]
  constructor
  · intro sp _
    have hpw := enum_pairwise_fst_lt actions
    refine List.Pairwise.filterMap _ ?_ hpw
    intro a b hlt e he e2 he2
    rw [Option.mem_def] at he he2
    obtain ⟨_, _, ht, _, _⟩ := relationshipFor_some _ _ _ _ _ he
    obtain ⟨_, _, ht2, _, _⟩ := relationshipFor_some _ _ _ _ _ he2
    intro hcontra
    apply Nat.ne_of_lt hlt
    apply nodeId_injective
    rw [← ht, ← ht2, hcontra]
  · have hpw := enum_pairwise_fst_lt actions
    refine hpw.imp ?_
    intro a b hlt e he1 he2
    rw [List.mem_filterMap] at he1 he2
    obtain ⟨tp, _, h1⟩ := he1
    obtain ⟨tq, _, h2⟩ := he2
    obtain ⟨_, hs1, _, _, _⟩ := relationshipFor_some _ _ _ _ _ h1
    obtain ⟨_, hs2, _, _, _⟩ := relationshipFor_some _ _ _ _ _ h2
    apply Nat.ne_of_lt hlt
    apply nodeId_injective
    rw [← hs1, ← hs2]

/-- Claim C1: on the two-record document
`[{action: Extract, name: a, dataframe: d1, location: p},
  {action: Transform, name: b, dataframe: d2, transformations: ["select * from d1"]}]`
the relationship inferencer yields exactly one edge, from record index 0
to record index 1 (the code renders an index `i` as the node id
`action-i`). -/
theorem findRelationships_extract_transform_single_edge :
    findRelationships
      [ [("action", JSValue.str "Extract"), ("name", JSValue.str "a"),
         ("dataframe", JSValue.str "d1"), ("location", JSValue.str "p")],
        [("action", JSValue.str "Transform"), ("name", JSValue.str "b"),
         ("dataframe", JSValue.str "d2"),
         ("transformations", JSValue.arr [JSValue.str "select * from d1"])] ] =
      [{ source := nodeId 0, target := nodeId 1 }] := by
  rfl

/-- Claim C2: whenever record `j` is a `Load` action whose `dataframe`
equals record `i`'s `dataframe` (JS strict equality), `findRelationships`
emits no edge from `i` to `j`, regardless of whether any field of record
`j` textually contains record `i`'s dataframe. -/
theorem findRelationships_load_exclusion
    (actions : List JSObj) (i j : Nat) (ri rj : JSObj)
    (hij : i ≠ j)
    (hi : actions[i]? = some ri) (hj : actions[j]? = some rj)
    (hload : jsStrictEq (getField rj "action") (JSValue.str "Load") = true)
    (hdf : jsStrictEq (getField rj "dataframe") (getField ri "dataframe") = true) :
    ({ source := nodeId i, target := nodeId j } : Edge) ∉ findRelationships actions := by
  intro hmem
  obtain ⟨si, src, ti, tgt, hsp, htp, hrel⟩ := mem_findRelationships actions _ hmem
  obtain ⟨hne, hsrc, htgt, hcond, _⟩ := relationshipFor_some _ _ _ _ _ hrel
  have hsi : si = i := (nodeId_injective i si hsrc).symm
  have hti : ti = j := (nodeId_injective j ti htgt).symm
  rw [hsi] at hsp
  rw [hti] at htp
  obtain ⟨-, -, hx⟩ := List.mem_enumFrom (show (i, src) ∈ List.enumFrom 0 actions from hsp)
  obtain ⟨-, -, hy⟩ := List.mem_enumFrom (show (j, tgt) ∈ List.enumFrom 0 actions from htp)
  rw [List.getElem?_eq_some_iff] at hi hj
  obtain ⟨hi1, hi2⟩ := hi
  obtain ⟨hj1, hj2⟩ := hj
  simp only [Nat.sub_zero] at hx hy
  have hsrci : src = ri := hx.trans hi2
  have htgtj : tgt = rj := hy.trans hj2
  rw [hsrci, htgtj] at hcond
  rw [hload, hdf] at hcond
  simp at hcond

/-- Witness for claim C2's theorem at a concrete document: an `Extract`
producing dataframe `x` followed by a `Load` tagged with the same
dataframe `x` whose `destination` even contains `x` textually — still no
edge 0 → 1. -/
theorem findRelationships_load_exclusion_check :
    ({ source := nodeId 0, target := nodeId 1 } : Edge) ∉
      findRelationships
        [ [("action", JSValue.str "Extract"), ("dataframe", JSValue.str "x")],
          [("action", JSValue.str "Load"), ("dataframe", JSValue.str "x"),
           ("destination", JSValue.str "into x")] ] :=
  findRelationships_load_exclusion
    [ [("action", JSValue.str "Extract"), ("dataframe", JSValue.str "x")],
      [("action", JSValue.str "Load"), ("dataframe", JSValue.str "x"),
       ("destination", JSValue.str "into x")] ]
    0 1
    [("action", JSValue.str "Extract"), ("dataframe", JSValue.str "x")]
    [("action", JSValue.str "Load"), ("dataframe", JSValue.str "x"),
     ("destination", JSValue.str "into x")]
    (by decide) rfl rfl rfl rfl

/-- Claim C3: the inferred edge list never contains a self-edge (both
endpoints the node id of the same index), and contains at most one edge
for each ordered pair of indices, however many fields of the target
match. -/
theorem findRelationships_no_self_edge_no_duplicates (actions : List JSObj) :
    (∀ e ∈ findRelationships actions, e.source ≠ e.target) ∧
    (∀ i j : Nat,
      (findRelationships actions).count { source := nodeId i, target := nodeId j } ≤ 1) := by
  constructor
  · intro e he
    obtain ⟨si, src, ti, tgt, -, -, hrel⟩ := mem_findRelationships actions e he
    obtain ⟨hne, hsrc, htgt, -, -⟩ := relationshipFor_some _ _ _ _ _ hrel
    rw [hsrc, htgt]
    intro hcontra
    exact hne (nodeId_injective si ti hcontra)
  · intro i j
    exact List.nodup_iff_count_le_one.mp (findRelationships_nodup actions) _

/-- Witness for claim C3's theorem on a concrete two-record document that
produces the edge 0 → 1. -/
theorem findRelationships_no_self_edge_no_duplicates_check :
    ({ source := nodeId 0, target := nodeId 1 } : Edge).source ≠
        ({ source := nodeId 0, target := nodeId 1 } : Edge).target ∧
      (findRelationships
          [ [("action", JSValue.str "Extract"), ("dataframe", JSValue.str "d1")],
            [("action", JSValue.str "Execute"), ("dataframe", JSValue.str "d2"),
             ("script", JSValue.str "from d1")] ]).count
        { source := nodeId 0, target := nodeId 1 } ≤ 1 :=
  ⟨(findRelationships_no_self_edge_no_duplicates
      [ [("action", JSValue.str "Extract"), ("dataframe", JSValue.str "d1")],
        [("action", JSValue.str "Execute"), ("dataframe", JSValue.str "d2"),
         ("script", JSValue.str "from d1")] ]).1
      { source := nodeId 0, target := nodeId 1 } (by decide),
    (findRelationships_no_self_edge_no_duplicates
      [ [("action", JSValue.str "Extract"), ("dataframe", JSValue.str "d1")],
        [("action", JSValue.str "Execute"), ("dataframe", JSValue.str "d2"),
         ("script", JSValue.str "from d1")] ]).2 0 1⟩

/-- Claim C4: when the parsed value is falsy, or its `actions` field is
falsy or not an array, `validateYaml` returns exactly the one structural
error and a null document (so no per-record errors); and when the
deserializer throws, the failure is caught and converted into a single
error string with a null document. -/
theorem validateYaml_structural_failure :
    (∀ data : JSValue,
      (truthy data && truthy (getProp data "actions") &&
        isArray (getProp data "actions")) = false →
      validateYaml (Except.ok data) = (["YAML must contain an 'actions' array"], none)) ∧
    (∀ e : Option String,
      validateYaml (Except.error e) = ([parseErrorMessage e], none)) := by
  constructor
  · intro data h
    have hc : (!truthy data || !truthy (getProp data "actions") ||
        !isArray (getProp data "actions")) = true := by
      revert h
      cases truthy data <;> cases truthy (getProp data "actions") <;>
        cases isArray (getProp data "actions") <;> simp
    simp [validateYaml, hc]
  · intro e
    rfl

/-- Witness for claim C4's theorem: a document without `actions`, and a
deserializer failure. -/
theorem validateYaml_structural_failure_check :
    validateYaml (Except.ok (JSValue.obj [("noactions", JSValue.str "x")])) =
        (["YAML must contain an 'actions' array"], none) ∧
      validateYaml (Except.error (some "bad indent")) =
        (["YAML parsing error: bad indent"], none) :=
  ⟨validateYaml_structural_failure.1 (JSValue.obj [("noactions", JSValue.str "x")]) rfl,
   validateYaml_structural_failure.2 (some "bad indent")⟩

/-- Claim C5: in a document with an `actions` array, a record whose
`action` field is present (truthy) but not in the known type set
contributes exactly one "unknown action type" error and no
required-field errors; validation still covers every record (the error
list is the concatenation of all per-record contributions) and the
returned document is non-null. -/
theorem validateYaml_unknown_action_type
    (data : JSValue) (l : List JSValue) (k : Nat) (r : JSValue)
    (hdata : truthy data = true)
    (hactions : getProp data "actions" = JSValue.arr l)
    (hk : l[k]? = some r)
    (haction : truthy (getProp r "action") = true)
    (hunknown : actionDefinitions.find?
        (fun d => jsStrictEq (JSValue.str d.name) (getProp r "action")) = none) :
    recordErrors k r =
        ["Unknown action type '" ++ jsToString (getProp r "action") ++
          "' at index " ++ decStr k] ∧
      validateYaml (Except.ok data) =
        (l.enum.flatMap (fun p => recordErrors p.1 p.2), some data) := by
  constructor
  · simp [recordErrors, haction, hunknown]
  · have hc : (!truthy data || !truthy (getProp data "actions") ||
        !isArray (getProp data "actions")) = false := by
      rw [hdata, hactions]
      rfl
    simp [validateYaml, hc, hactions, asArr]
    exact ⟨⟨hdata, rfl⟩, rfl⟩

/-- Witness for claim C5's theorem: one record tagged with the unknown
type `Bogus`. -/
theorem validateYaml_unknown_action_type_check :
    recordErrors 0 (JSValue.obj [("action", JSValue.str "Bogus")]) =
        ["Unknown action type '" ++
          jsToString (getProp (JSValue.obj [("action", JSValue.str "Bogus")]) "action") ++
          "' at index " ++ decStr 0] ∧
      validateYaml (Except.ok (JSValue.obj
          [("actions", JSValue.arr [JSValue.obj [("action", JSValue.str "Bogus")]])])) =
        (([JSValue.obj [("action", JSValue.str "Bogus")]] : List JSValue).enum.flatMap
            (fun p => recordErrors p.1 p.2),
          some (JSValue.obj
            [("actions", JSValue.arr [JSValue.obj [("action", JSValue.str "Bogus")]])])) :=
  validateYaml_unknown_action_type
    (JSValue.obj [("actions", JSValue.arr [JSValue.obj [("action", JSValue.str "Bogus")]])])
    [JSValue.obj [("action", JSValue.str "Bogus")]]
    0
    (JSValue.obj [("action", JSValue.str "Bogus")])
    rfl rfl rfl rfl rfl

/-- Counterexample to claim C6 as stated: for the known-type record
`{action: Extract, name: n, dataframe: d, location: false}` the code
emits one "missing mandatory property" error for `location` (the value
`false` is falsy), yet `location` is neither absent nor empty — it is a
present boolean — so the number of errors differs from the number of
required fields that are absent or empty. -/
theorem recordErrors_counts_falsy_fields :
    (recordErrors 0 (JSValue.obj
        [("action", JSValue.str "Extract"), ("name", JSValue.str "n"),
         ("dataframe", JSValue.str "d"), ("location", JSValue.bool false)])).length ≠
      ((getMandatoryProps "Extract").filter
        (fun prop => prop != "action" &&
          absentOrEmpty (JSValue.obj
            [("action", JSValue.str "Extract"), ("name", JSValue.str "n"),
             ("dataframe", JSValue.str "d"), ("location", JSValue.bool false)]) prop)).length := by
  decide

/-- Claim C6 (amended): for a record of a known type, the number of
"missing mandatory property" errors equals the number of its required
fields, other than `action`, whose value on the record is falsy (absent,
null, empty string, `false`, or `0`). -/
theorem recordErrors_known_type_count
    (k : Nat) (r : JSValue) (definition : ActionDefinition)
    (haction : truthy (getProp r "action") = true)
    (hfound : actionDefinitions.find?
        (fun d => jsStrictEq (JSValue.str d.name) (getProp r "action")) = some definition) :
    (recordErrors k r).length =
      (definition.mandatoryProps.filter
        (fun prop => prop != "action" && !truthy (getProp r prop))).length := by
  simp [recordErrors, haction, hfound]

/-- Witness for claim C6's amended theorem: an `Extract` record missing
`location` — one error, one falsy required field. -/
theorem recordErrors_known_type_count_check :
    (recordErrors 2 (JSValue.obj
        [("action", JSValue.str "Extract"), ("name", JSValue.str "n"),
         ("dataframe", JSValue.str "d")])).length =
      ((({ name := "Extract", color := "#4CAF50", icon := "database",
           mandatoryProps := ["action", "name", "dataframe", "location"],
           optionalProps := ["tableName", "databaseName"] } : ActionDefinition)).mandatoryProps.filter
        (fun prop => prop != "action" &&
          !truthy (getProp (JSValue.obj
            [("action", JSValue.str "Extract"), ("name", JSValue.str "n"),
             ("dataframe", JSValue.str "d")]) prop))).length :=
  recordErrors_known_type_count 2
    (JSValue.obj [("action", JSValue.str "Extract"), ("name", JSValue.str "n"),
      ("dataframe", JSValue.str "d")])
    { name := "Extract", color := "#4CAF50", icon := "database",
      mandatoryProps := ["action", "name", "dataframe", "location"],
      optionalProps := ["tableName", "databaseName"] }
    rfl rfl

/-- Counterexample to claim C7 as stated: the field `script` holds the
string `"SELECT 1"` (8 characters), its name matches the fragment list,
yet the classifier returns nothing — string fields of length ≤ 10 are
never classified, whatever their name. -/
theorem identifySQLProperties_short_string_skipped :
    identifySQLProperties [("script", JSValue.str "SELECT 1")] = [] := by
  rfl

/-- Claim C7 (amended): every string-valued field longer than 10
characters whose name contains one of the fixed fragments is classified
by `identifySQLProperties`, whatever the string's content. -/
theorem identifySQLProperties_name_fragment
    (action : JSObj) (key value : String)
    (hmem : (key, JSValue.str value) ∈ action)
    (hlen : 10 < value.length)
    (hname : nameSuggestsSQL key = true) :
    key ∈ identifySQLProperties action := by
  unfold identifySQLProperties
  rw [List.mem_filterMap]
  refine ⟨(key, JSValue.str value), hmem, ?_⟩
  simp [hlen, hname]

/-- Witness for claim C7's amended theorem: a 24-character non-SQL string
under the field name `script`. -/
theorem identifySQLProperties_name_fragment_check :
    "script" ∈ identifySQLProperties
      [("name", JSValue.str "n"), ("script", JSValue.str "do the thing now please!")] :=
  identifySQLProperties_name_fragment
    [("name", JSValue.str "n"), ("script", JSValue.str "do the thing now please!")]
    "script" "do the thing now please!"
    (List.Mem.tail _ (List.Mem.head _)) (by decide) (by decide)

/-- Claim C8: on `"DELETE FROM customers"` (no `WHERE`), with the opaque
formatter succeeding on this well-formed statement, `validateSQL` reports
no errors and exactly the one missing-`WHERE` warning, hence `isValid`. -/
theorem validateSQL_delete_without_where :
    validateSQL none "DELETE FROM customers" =
      { isValid := true, errors := [],
        warnings := ["DELETE statement without WHERE clause - this will delete all rows"] } := by
  rfl

theorem string_length_zero_iff (s : String) : s.length = 0 ↔ s = "" := by
  cases s with
  | mk data =>
    cases data with
    | nil => simp [String.length]
    | cons c t =>
      constructor
      · intro h
        simp [String.length] at h
      · intro h
        simpa using congrArg String.data h

/-- Claim C9: `validateS3Filename` rejects a filename exactly under the
claimed conditions (empty after trim, too long, forbidden or control
character, reserved name before the first dot), and
`ensureYamlExtension` keeps an existing `.yaml`/`.yml` extension and
appends `.yaml` otherwise. -/
theorem validateS3Filename_matches_claim (filename : String) :
    ((validateS3Filename filename).isValid = false ↔
        claimRejectsFilename filename = true) ∧
      ensureYamlExtension filename =
        (if strEndsWith (jsTrim filename) ".yaml" || strEndsWith (jsTrim filename) ".yml"
          then jsTrim filename else jsTrim filename ++ ".yaml") := by
  refine ⟨?_, rfl⟩
  by_cases h0 : filename = ""
  · subst h0
    exact ⟨fun _ => rfl, fun _ => rfl⟩
  · have h0b : (filename == "") = false := beq_eq_false_iff_ne.mpr h0
    unfold validateS3Filename claimRejectsFilename
    rw [h0b]
    simp only [Bool.false_eq_true, if_false]
    split_ifs with h1 h2 h3 h4
    · have ht : jsTrim filename = "" := (string_length_zero_iff _).mp (by simpa using h1)
      simp [ht]
    · simp [h2]
    · simp [h3]
    · have hm := List.mem_of_elem_eq_true h4
      simp [hm]
    · have ht : ¬ jsTrim filename = "" := by
        intro hc
        apply h1
        rw [hc]
        rfl
      have h4m : toUpperStr (List.takeWhile (fun c => c != '.')
          (jsTrim filename).data).asString ∉ reservedNames := by
        intro hc
        exact h4 (List.elem_eq_true_of_mem hc)
      simp [h1, h2, h3, h4m, ht]

theorem lookup_map_overwrite (k k2 : String) (v : JSValue) (h : k2 ≠ k) :
    ∀ fs : JSObj,
      (fs.map (fun p => if p.1 == k then (p.1, v) else p)).lookup k2 = fs.lookup k2 := by
  intro fs
  induction fs with
  | nil => rfl
  | cons p t ih =>
    obtain ⟨a, b⟩ := p
    rw [List.map_cons]
    by_cases hak : a = k
    · rw [if_pos (show ((a, b).1 == k) = true from beq_iff_eq.mpr hak)]
      have hk2a : (k2 == a) = false :=
        beq_eq_false_iff_ne.mpr (fun hc => h (hc.trans hak))
      simp only [List.lookup, hk2a]
      simpa using ih
    · rw [if_neg (show ¬ ((a, b).1 == k) = true from by simpa using hak)]
      by_cases hk2a : k2 = a
      · subst hk2a
        simp [List.lookup]
      · simp only [List.lookup, beq_eq_false_iff_ne.mpr hk2a]
        simpa using ih

theorem lookup_append_single (k k2 : String) (v : JSValue) (h : k2 ≠ k) :
    ∀ fs : JSObj, (fs ++ [(k, v)]).lookup k2 = fs.lookup k2 := by
  intro fs
  induction fs with
  | nil =>
    have hk2 : (k2 == k) = false := beq_eq_false_iff_ne.mpr h
    simp [List.lookup, hk2]
  | cons p t ih =>
    obtain ⟨a, b⟩ := p
    by_cases hk2a : k2 = a
    · subst hk2a
      simp [List.lookup]
    · have hk2ab : (k2 == a) = false := beq_eq_false_iff_ne.mpr hk2a
      simp [List.lookup, hk2ab, ih]

theorem getField_setField_ne (fs : JSObj) (k k2 : String) (v : JSValue) (h : k2 ≠ k) :
    getField (setField fs k v) k2 = getField fs k2 := by
  unfold setField
  split_ifs with hany
  · unfold getField
    rw [lookup_map_overwrite k k2 v h fs]
  · unfold getField
    rw [lookup_append_single k k2 v h fs]

theorem getField_autoFormat_foldl (fmt : String → Option String) (k : String) :
    ∀ (props : List String) (acc : JSObj), k ∉ props →
      getField (props.foldl
        (fun formattedAction prop =>
          match getField formattedAction prop with
          | .str value => setField formattedAction prop (.str (formatSQL fmt value))
          | .arr items =>
            setField formattedAction prop (.arr (items.map (fun item =>
              match item with
              | .str s => if detectSQLSyntax s then .str (formatSQL fmt s) else item
              | _ => item)))
          | _ => formattedAction) acc) k = getField acc k := by
  intro props
  induction props with
  | nil => intro acc _; rfl
  | cons p t ih =>
    intro acc hk
    have hkp : k ≠ p := by
      intro hc
      exact hk (hc ▸ List.mem_cons_self p t)
    have hkt : k ∉ t := fun hc => hk (List.mem_cons_of_mem _ hc)
    rw [List.foldl_cons, ih _ hkt]
    cases hv : getField acc p with
    | str s => simp only [hv]; exact getField_setField_ne _ _ _ _ hkp
    | arr items => simp only [hv]; exact getField_setField_ne _ _ _ _ hkp
    | undefined => simp only [hv]
    | null => simp only [hv]
    | bool b => simp only [hv]
    | num n => simp only [hv]
    | obj fields => simp only [hv]

/-- Claim C10: `autoFormatSQLInAction` preserves every field whose name
is not in `identifySQLProperties` of the input record, for any outcome of
the opaque formatter; in this pure model the input record itself is a
value and cannot be mutated (the source spread-copies it before
assigning). -/
theorem autoFormatSQLInAction_frame
    (fmt : String → Option String) (action : JSObj) (k : String)
    (h : k ∉ identifySQLProperties action) :
    getField (autoFormatSQLInAction fmt action) k = getField action k := by
  unfold autoFormatSQLInAction
  exact getField_autoFormat_foldl fmt k (identifySQLProperties action) action h

/-- Witness for claim C10's theorem: the `name` field of a record whose
`script` field is classified is preserved by a formatter that rewrites
everything to `X`. -/
theorem autoFormatSQLInAction_frame_check :
    getField (autoFormatSQLInAction (fun _ => some "X")
        [("name", JSValue.str "n"), ("script", JSValue.str "select 1 from t")]) "name" =
      getField [("name", JSValue.str "n"), ("script", JSValue.str "select 1 from t")] "name" :=
  autoFormatSQLInAction_frame (fun _ => some "X")
    [("name", JSValue.str "n"), ("script", JSValue.str "select 1 from t")]
    "name" (by decide)
